import Mathlib

/-!
Shallow embedding of the replayable molecule-modeling kernel of AtomCAD
(crates/scene/src/molecule.rs): the molecule graph, its mutation contract
(add_atom / create_bond / find_atom), and the Molecule orchestrator with its
monotone history-step cursor.  Panics (Rust assert! / panic! / expect) are
modelled as Option.none; machine integers that are only stored, never
computed with, are modelled as Nat.
-/

namespace AtomCAD

/-- Modelled from the spec: the atomic-species catalog type consumed from the
periodic_table collaborator (not in scope); an immutable value with structural
equality, modelled as a natural number. -/
abbrev Element := Nat

/-- Modelled from the spec: the 3D-vector type consumed from the ultraviolet
collaborator (not in scope).  The kernel only stores and structurally compares
positions — no arithmetic — so components are modelled as integers. -/
structure Vec3 where
  x : Int
  y : Int
  z : Int
deriving DecidableEq, Repr

/-- The origin, `Vec3::default()`. -/
def Vec3.zero : Vec3 := ⟨0, 0, 0⟩

/-- Modelled from the spec: one (origin-feature-id, duplicate-index) entry of a
specifier path (ids.rs not in scope; field names as used in molecule.rs). -/
structure FeatureCopyId where
  feature_id : Nat
  copy_index : Nat
deriving DecidableEq, Repr

/-- Modelled from the spec: structural, hierarchical identity for an atom —
a lineage path plus a local (child) index (ids.rs not in scope; field names as
used in molecule.rs). -/
structure AtomSpecifier where
  feature_path : List FeatureCopyId
  child_index : Nat
deriving DecidableEq, Repr

/-- Bond order: a small integer edge payload (`type BondOrder = u8`); it is
only stored, never computed with, so it is modelled as Nat. -/
abbrev BondOrder := Nat

/-- Graph node identifier (`petgraph` NodeIndex).  Nodes are never removed in
this core, so indices are consecutive positions in the node list. -/
abbrev AtomIndex := Nat

/-- Graph vertex payload (struct AtomNode in molecule.rs). -/
structure AtomNode where
  element : Element
  pos : Vec3
  spec : AtomSpecifier
deriving DecidableEq, Repr

/-- Modelled from the spec: `AtomKind::new(element)` of the render collaborator
wraps the element value. -/
abbrev AtomKind := Element

/-- Modelled from the spec: one entry of the render-ready buffer (AtomRepr of
the render collaborator). -/
structure AtomRepr where
  kind : AtomKind
  pos : Vec3
deriving DecidableEq, Repr

/-- Modelled from the spec: the opaque GPU render buffer (Atoms of the render
collaborator), as the list of entries it was built from; `Atoms::new` stores
exactly the given entries. -/
abbrev Atoms := List AtomRepr

/-- `stable_graph::StableUnGraph<AtomNode, BondOrder>`: an undirected graph
whose node and edge identifiers stay valid across unrelated removals.  This
core never removes nodes or edges, so it is embedded as the append-only lists
of node payloads (index = list position) and of edges. -/
structure Graph where
  nodes : List AtomNode
  edges : List (AtomIndex × AtomIndex × BondOrder)
deriving DecidableEq, Repr

/-- `graph.add_node(w)`: appends a node, returning the new graph and the fresh
node index. -/
def Graph.add_node (g : Graph) (w : AtomNode) : Graph × AtomIndex :=
  ({ g with nodes := g.nodes ++ [w] }, g.nodes.length)

/-- `graph.add_edge(a, b, w)`: unconditionally appends a fresh edge (petgraph
`add_edge` never deduplicates and permits self-loops). -/
def Graph.add_edge (g : Graph) (a b : AtomIndex) (w : BondOrder) : Graph :=
  { g with edges := g.edges ++ [(a, b, w)] }

/-- `graph.node_weight(i)`. -/
def Graph.node_weight (g : Graph) (i : AtomIndex) : Option AtomNode :=
  g.nodes[i]?

/-- `HashMap<AtomSpecifier, AtomIndex>`, embedded as an association list with
unique keys. -/
abbrev AtomMap := List (AtomSpecifier × AtomIndex)

/-- `map.get(&k)`: first value stored under key `k`. -/
def AtomMap.get : AtomMap → AtomSpecifier → Option AtomIndex
  | [], _ => none
  | (k, v) :: rest, s => if k = s then some v else AtomMap.get rest s

/-- `map.insert(k, v)`: replaces the value under an existing key, otherwise
appends the new entry (HashMap overwrite semantics). -/
def AtomMap.insert : AtomMap → AtomSpecifier → AtomIndex → AtomMap
  | [], k, v => [(k, v)]
  | (k', v') :: rest, k, v =>
    if k' = k then (k, v) :: rest else (k', v') :: AtomMap.insert rest k v

/-- struct MoleculeRepr: the concrete molecule at some point of the feature
history — specifier map, render mirror, graph, and the render-sync flag. -/
structure MoleculeRepr where
  atom_map : AtomMap
  gpu_atoms : Atoms
  graph : Graph
  gpu_synced : Bool
deriving DecidableEq, Repr

/-- `MoleculeRepr::add_atom` (MoleculeCommands impl): adds a node carrying the
element, position and specifier, maps the specifier to the fresh index, and
clears the render-sync flag.  The source performs no duplicate-specifier
check. -/
def MoleculeRepr.add_atom (self : MoleculeRepr) (element : Element) (pos : Vec3)
    (spec : AtomSpecifier) : MoleculeRepr :=
  let p := self.graph.add_node { element := element, pos := pos, spec := spec }
  { self with
    graph := p.1
    atom_map := self.atom_map.insert spec p.2
    gpu_synced := false }

/-- `MoleculeRepr::create_bond`: resolves both endpoint specifiers through the
map and adds one edge of the given order; panics (none) if either endpoint is
unresolved.  The source does not touch the render-sync flag here. -/
def MoleculeRepr.create_bond (self : MoleculeRepr) (a1 a2 : AtomSpecifier)
    (order : BondOrder) : Option MoleculeRepr :=
  match self.atom_map.get a1, self.atom_map.get a2 with
  | some a1_index, some a2_index =>
    some { self with graph := self.graph.add_edge a1_index a2_index order }
  | _, _ => none

/-- `MoleculeRepr::find_atom`: read-only lookup through the specifier map. -/
def MoleculeRepr.find_atom (self : MoleculeRepr) (spec : AtomSpecifier) :
    Option AtomNode :=
  match self.atom_map.get spec with
  | some atom_index => self.graph.node_weight atom_index
  | none => none

/-- `MoleculeRepr::reupload_atoms`: flattens the current vertex set into a
render-ready buffer and re-sets the render-sync flag (the GPU resource handle
is opaque, modelled as Unit). -/
def MoleculeRepr.reupload_atoms (self : MoleculeRepr) (_gpu_resources : Unit) :
    MoleculeRepr :=
  { self with
    gpu_atoms := self.graph.nodes.map (fun node => { kind := node.element, pos := node.pos })
    gpu_synced := true }

/-- Feature identities assigned by the timeline. -/
abbrev FeatureId := Nat

/-- Modelled from the spec: a Feature is polymorphic over one capability,
`apply(own-identity, &mut graph)`, which may add any number of atoms and bonds
and may fail fatally (e.g. an unresolved bond endpoint); feature.rs is not in
scope.  The capability is embedded as a state-transformer returning none on a
fatal failure. -/
structure Feature where
  apply : FeatureId → MoleculeRepr → Option MoleculeRepr

/-- Modelled from the spec: the distinguished root operation; its apply
creates exactly one atom with the canonical seed specifier (path length 1,
duplicate-index 0, local-index 0) at the origin (feature.rs is not in scope;
the stored element is not recorded by the root operation itself, so the
canonical seed element 0 is used). -/
def RootFeature : Feature :=
  ⟨fun feature_id repr =>
    some (repr.add_atom 0 Vec3.zero ⟨[⟨feature_id, 0⟩], 0⟩)⟩

/-- Modelled from the spec: the Feature Timeline — an append-only registry
assigning each inserted Feature the next sequential identity, plus an explicit
replay order that by default equals insertion order (feature.rs not in
scope). -/
structure FeatureList where
  order : List FeatureId
  items : List (FeatureId × Feature)
  next_id : Nat

/-- The empty timeline (`FeatureList::default()`). -/
def FeatureList.empty : FeatureList := ⟨[], [], 0⟩

/-- `push_back(feature)`: assigns the next sequential identity and appends to
both the registry and the replay order. -/
def FeatureList.push_back (fl : FeatureList) (f : Feature) : FeatureList :=
  { order := fl.order ++ [fl.next_id]
    items := fl.items ++ [(fl.next_id, f)]
    next_id := fl.next_id + 1 }

/-- `get(identity)`: registry lookup for replay. -/
def FeatureList.get (fl : FeatureList) (id : FeatureId) : Option Feature :=
  (fl.items.find? (fun p => p.1 == id)).map (fun p => p.2)

/-- `len()`: the number of registered operations (equal to the length of the
replay order in every reachable timeline). -/
def FeatureList.len (fl : FeatureList) : Nat := fl.order.length

/-- struct Molecule: a molecule graph and a feature timeline behind a monotone
history-step cursor.  The rotation and offset fields are stored but never read
or written by the operations in scope; the rotor is modelled as Unit. -/
structure Molecule where
  repr : MoleculeRepr
  rotation : Unit
  offset : Vec3
  features : FeatureList
  history_step : Nat

/-- The canonical seed specifier built by `Molecule::from_first_atom`:
path = [(feature-id 0, duplicate-index 0)], local-index 0. -/
def seedSpec : AtomSpecifier := ⟨[⟨0, 0⟩], 0⟩

/-- `Molecule::from_first_atom`: a Molecule containing exactly the seed atom of
the given element at the origin, a timeline holding only the root operation,
and history step 1. -/
def Molecule.from_first_atom (_gpu_resources : Unit) (first_atom : Element) :
    Molecule :=
  let p := (Graph.mk [] []).add_node
    { element := first_atom, pos := Vec3.zero, spec := seedSpec }
  { repr :=
      { atom_map := [(seedSpec, p.2)]
        gpu_atoms := [{ kind := first_atom, pos := Vec3.zero }]
        graph := p.1
        gpu_synced := false }
    rotation := ()
    offset := Vec3.zero
    features := FeatureList.empty.push_back RootFeature
    history_step := 1 }

/-- The replay loop body of `Molecule::set_history_step`: resolve each listed
identity in order (a missing identity is the `expect` panic) and invoke its
apply against the graph. -/
def applyFeatures (fl : FeatureList) : List FeatureId → MoleculeRepr → Option MoleculeRepr
  | [], repr => some repr
  | id :: ids, repr =>
    match fl.get id with
    | some f =>
      match f.apply id repr with
      | some repr' => applyFeatures fl ids repr'
      | none => none
    | none => none

/-- `Molecule::set_history_step(target)`: asserts target ≤ timeline length and
target > current step (each failed assert is a panic, none), then applies, in
order, the features listed in `order()[current .. target]`, and finally sets
the cursor to target. -/
def Molecule.set_history_step (self : Molecule) (history_step : Nat) :
    Option Molecule :=
  if history_step ≤ self.features.len then
    if self.history_step < history_step then
      match applyFeatures self.features
          ((self.features.order.drop self.history_step).take
            (history_step - self.history_step)) self.repr with
      | some repr => some { self with repr := repr, history_step := history_step }
      | none => none
    else none
  else none

/-- `Molecule::apply_all_features`: applies every feature in the timeline. -/
def Molecule.apply_all_features (self : Molecule) : Option Molecule :=
  self.set_history_step self.features.len

/-- `Molecule::with_features(func)`: hands the caller direct access to the
timeline; no re-materialization happens. -/
def Molecule.with_features (self : Molecule) (func : FeatureList → FeatureList) :
    Molecule :=
  { self with features := func self.features }

/-- Modelled from the spec: the Feature Timeline is an append-only registry,
so any edit a caller can express through its interface is a sequence of
push_back calls. -/
def pushAll (fs : List Feature) (fl : FeatureList) : FeatureList :=
  fs.foldl FeatureList.push_back fl

/-- One public operation on a Molecule: a successful forward history step, a
successful apply-all, or a timeline edit through with_features. -/
inductive Step : Molecule → Molecule → Prop
  | set_step (m m' : Molecule) (t : Nat) :
      m.set_history_step t = some m' → Step m m'
  | apply_all (m m' : Molecule) :
      m.apply_all_features = some m' → Step m m'
  | with_feats (m : Molecule) (fs : List Feature) :
      Step m (m.with_features (pushAll fs))

/-- States reachable by chaining public operations. -/
abbrev Reachable : Molecule → Molecule → Prop := Relation.ReflTransGen Step

/-- A sample non-root feature: adds one atom, deriving the specifier from the
feature's own identity. -/
def demoFeature : Feature :=
  ⟨fun id repr => some (repr.add_atom 1 ⟨1, 0, 0⟩ ⟨[⟨id, 0⟩], 0⟩)⟩

/-- A sample feature that creates a bond from the seed atom to itself. -/
def demoBondFeature : Feature :=
  ⟨fun _ repr => repr.create_bond seedSpec seedSpec 1⟩

/-- The seeded molecule graph used as a concrete test state. -/
def wRepr : MoleculeRepr := (Molecule.from_first_atom () 6).repr

/-- The seeded molecule graph after a render upload (render-sync flag set). -/
def syncedRepr : MoleculeRepr := wRepr.reupload_atoms ()

/-- A seeded molecule whose timeline carries two further pending features. -/
def demoMol : Molecule :=
  (Molecule.from_first_atom () 6).with_features
    (pushAll [demoFeature, demoBondFeature])

/-- The render-synced seed graph after bonding the seed atom to itself. -/
def bondedSyncedRepr : MoleculeRepr :=
  { syncedRepr with graph :=
    { syncedRepr.graph with edges := syncedRepr.graph.edges ++ [(0, 0, 1)] } }

theorem push_back_len (fl : FeatureList) (f : Feature) :
    (fl.push_back f).len = fl.len + 1 := by
  simp [FeatureList.push_back, FeatureList.len]

theorem pushAll_len (fs : List Feature) (fl : FeatureList) :
    (pushAll fs fl).len = fl.len + fs.length := by
  induction fs generalizing fl with
  | nil => simp [pushAll]
  | cons f fs ih =>
    show (pushAll fs (fl.push_back f)).len = _
    rw [ih, push_back_len, List.length_cons]
    omega

/-- C6: from_first_atom yields exactly one node carrying the given element at
the origin, no edges, exactly one specifier-map entry keyed by the canonical
seed specifier (path [(0,0)], local-index 0) mapped to node 0, one timeline
entry which is the root operation, and history step 1. -/
theorem from_first_atom_spec (e : Element) :
    (Molecule.from_first_atom () e).repr.graph.nodes = [⟨e, Vec3.zero, seedSpec⟩] ∧
    (Molecule.from_first_atom () e).repr.graph.edges = [] ∧
    (Molecule.from_first_atom () e).repr.atom_map = [(seedSpec, 0)] ∧
    seedSpec = ⟨[⟨0, 0⟩], 0⟩ ∧
    (Molecule.from_first_atom () e).features.len = 1 ∧
    (Molecule.from_first_atom () e).features.order = [0] ∧
    (Molecule.from_first_atom () e).features.get 0 = some RootFeature ∧
    (Molecule.from_first_atom () e).history_step = 1 :=
  ⟨rfl, rfl, rfl, rfl, rfl, rfl, rfl, rfl⟩

/-- C7: apply_all_features is exactly set_history_step at the timeline length —
same result state and same failure conditions; in particular both are rejected
when the cursor already equals the timeline length. -/
theorem apply_all_features_spec (m : Molecule) :
    m.apply_all_features = m.set_history_step m.features.len ∧
    (m.history_step = m.features.len → m.apply_all_features = none) := by
  refine ⟨rfl, fun h => ?_⟩
  simp [Molecule.apply_all_features, Molecule.set_history_step, h]

theorem apply_all_features_spec_witness :
    (Molecule.from_first_atom () 6).apply_all_features = none :=
  (apply_all_features_spec (Molecule.from_first_atom () 6)).2 rfl

/-- C4: set_history_step with a target at or below the current step, or above
the timeline length, panics on an assert before any feature is applied; the
panic is modelled as none, so no state change escapes. -/
theorem set_history_step_rejected (m : Molecule) (t : Nat)
    (h : t ≤ m.history_step ∨ m.features.len < t) :
    m.set_history_step t = none := by
  unfold Molecule.set_history_step
  rcases h with h | h
  · by_cases hle : t ≤ m.features.len
    · rw [if_pos hle, if_neg (by omega)]
    · rw [if_neg hle]
  · rw [if_neg (by omega)]

theorem set_history_step_rejected_witness :
    (Molecule.from_first_atom () 6).set_history_step 1 = none :=
  set_history_step_rejected (Molecule.from_first_atom () 6) 1 (Or.inl (by decide))

/-- C3: create_bond panics (none) when either endpoint specifier is
unresolved, adding no edge; with both endpoints resolved it adds exactly one
edge of the given order between the two resolved nodes and leaves the
specifier map and the node list unchanged. -/
theorem create_bond_spec (r : MoleculeRepr) (a1 a2 : AtomSpecifier) (o : BondOrder) :
    ((r.atom_map.get a1 = none ∨ r.atom_map.get a2 = none) →
      r.create_bond a1 a2 o = none) ∧
    (∀ i1 i2, r.atom_map.get a1 = some i1 → r.atom_map.get a2 = some i2 →
      r.create_bond a1 a2 o =
        some { r with graph :=
          { r.graph with edges := r.graph.edges ++ [(i1, i2, o)] } }) := by
  constructor
  · intro h
    rcases h with h | h
    · simp [MoleculeRepr.create_bond, h]
    · cases hg : r.atom_map.get a1 <;> simp [MoleculeRepr.create_bond, h, hg]
  · intro i1 i2 h1 h2
    simp [MoleculeRepr.create_bond, h1, h2, Graph.add_edge]

theorem create_bond_spec_witness :
    wRepr.create_bond seedSpec ⟨[], 1⟩ 2 = none ∧
    wRepr.create_bond seedSpec seedSpec 3 =
      some { wRepr with graph :=
        { wRepr.graph with edges := wRepr.graph.edges ++ [(0, 0, 3)] } } :=
  ⟨(create_bond_spec wRepr seedSpec ⟨[], 1⟩ 2).1 (Or.inr rfl),
   (create_bond_spec wRepr seedSpec seedSpec 3).2 0 0 rfl rfl⟩

theorem AtomMap.get_insert_self (m : AtomMap) (k : AtomSpecifier) (v : AtomIndex) :
    (m.insert k v).get k = some v := by
  induction m with
  | nil => simp [AtomMap.insert, AtomMap.get]
  | cons p rest ih =>
    obtain ⟨k', v'⟩ := p
    by_cases h : k' = k
    · simp [AtomMap.insert, AtomMap.get, h]
    · simp [AtomMap.insert, AtomMap.get, h, ih]

/-- C2 counterexample: the source add_atom contains no duplicate-specifier
check and no failure path at all; inserting the seed specifier a second time
succeeds and grows the graph instead of failing and leaving it unchanged. -/
theorem add_atom_dup_counterexample :
    wRepr.atom_map.get seedSpec = some 0 ∧
    (wRepr.add_atom 6 Vec3.zero seedSpec).graph ≠ wRepr.graph := by
  exact ⟨rfl, by decide⟩

/-- C2 amended: add_atom performs no duplicate-specifier check: even when the
specifier is already a key of the map, the call succeeds, appends a fresh node
carrying exactly the arguments, and redirects the map entry to the fresh
index; the previously mapped node stays in the graph (the edge list is also
untouched). -/
theorem add_atom_dup_overwrites (r : MoleculeRepr) (e : Element) (p : Vec3)
    (s : AtomSpecifier) (i : AtomIndex) (_h : r.atom_map.get s = some i) :
    (r.add_atom e p s).graph.nodes = r.graph.nodes ++ [⟨e, p, s⟩] ∧
    (r.add_atom e p s).atom_map.get s = some r.graph.nodes.length ∧
    (r.add_atom e p s).graph.edges = r.graph.edges := by
  refine ⟨rfl, ?_, rfl⟩
  simp [MoleculeRepr.add_atom, Graph.add_node, AtomMap.get_insert_self]

theorem add_atom_dup_overwrites_witness :
    (wRepr.add_atom 7 Vec3.zero seedSpec).graph.nodes =
      wRepr.graph.nodes ++ [⟨7, Vec3.zero, seedSpec⟩] ∧
    (wRepr.add_atom 7 Vec3.zero seedSpec).atom_map.get seedSpec =
      some wRepr.graph.nodes.length ∧
    (wRepr.add_atom 7 Vec3.zero seedSpec).graph.edges = wRepr.graph.edges :=
  add_atom_dup_overwrites wRepr 7 Vec3.zero seedSpec 0 rfl

/-- C8 counterexample: starting from a render-synced state, create_bond is a
structural mutation that leaves the synced flag true — the source create_bond
never writes gpu_synced — so not every structural mutation clears the flag. -/
theorem create_bond_gpu_synced_counterexample :
    syncedRepr.gpu_synced = true ∧
    (syncedRepr.create_bond seedSpec seedSpec 1).map MoleculeRepr.gpu_synced =
      some true :=
  ⟨rfl, rfl⟩

/-- C8 amended: add_atom clears the render-sync flag and reupload_atoms sets
it back; create_bond leaves the flag exactly as it was (and find_atom is
read-only), so add_atom and reupload_atoms are the only flag writers. -/
theorem gpu_synced_flag_spec (r r' : MoleculeRepr) (e : Element) (p : Vec3)
    (s a1 a2 : AtomSpecifier) (o : BondOrder) (g : Unit) :
    (r.add_atom e p s).gpu_synced = false ∧
    (r.reupload_atoms g).gpu_synced = true ∧
    (r.create_bond a1 a2 o = some r' → r'.gpu_synced = r.gpu_synced) := by
  refine ⟨rfl, rfl, fun h => ?_⟩
  unfold MoleculeRepr.create_bond at h
  split at h
  · injection h with h2
    subst h2
    rfl
  · simp at h

theorem gpu_synced_flag_spec_witness :
    (syncedRepr.add_atom 1 Vec3.zero seedSpec).gpu_synced = false ∧
    (syncedRepr.reupload_atoms ()).gpu_synced = true ∧
    bondedSyncedRepr.gpu_synced = syncedRepr.gpu_synced :=
  ⟨(gpu_synced_flag_spec syncedRepr bondedSyncedRepr 1 Vec3.zero seedSpec
      seedSpec seedSpec 1 ()).1,
   (gpu_synced_flag_spec syncedRepr bondedSyncedRepr 1 Vec3.zero seedSpec
      seedSpec seedSpec 1 ()).2.1,
   (gpu_synced_flag_spec syncedRepr bondedSyncedRepr 1 Vec3.zero seedSpec
      seedSpec seedSpec 1 ()).2.2 rfl⟩

/-- C9: immediately after add_atom, find_atom on the inserted specifier
returns the atom whose element, position and specifier are exactly the
arguments; find_atom on a specifier absent from the map returns none (and is
read-only by construction). -/
theorem find_atom_after_add (r : MoleculeRepr) (e : Element) (p : Vec3)
    (s s' : AtomSpecifier) :
    (r.add_atom e p s).find_atom s = some ⟨e, p, s⟩ ∧
    (r.atom_map.get s' = none → r.find_atom s' = none) := by
  constructor
  · simp only [MoleculeRepr.add_atom, MoleculeRepr.find_atom, Graph.add_node,
      AtomMap.get_insert_self, Graph.node_weight]
    exact List.getElem?_concat_length _ _
  · intro h
    simp [MoleculeRepr.find_atom, h]

theorem find_atom_after_add_witness :
    (wRepr.add_atom 8 ⟨1, 2, 3⟩ ⟨[⟨1, 0⟩], 0⟩).find_atom ⟨[⟨1, 0⟩], 0⟩ =
      some ⟨8, ⟨1, 2, 3⟩, ⟨[⟨1, 0⟩], 0⟩⟩ ∧
    wRepr.find_atom ⟨[⟨1, 0⟩], 0⟩ = none :=
  ⟨(find_atom_after_add wRepr 8 ⟨1, 2, 3⟩ ⟨[⟨1, 0⟩], 0⟩ ⟨[⟨1, 0⟩], 0⟩).1,
   (find_atom_after_add wRepr 8 ⟨1, 2, 3⟩ ⟨[⟨1, 0⟩], 0⟩ ⟨[⟨1, 0⟩], 0⟩).2 rfl⟩

/-- C10: create_bond deduplicates nothing and allows self-loops: with both
endpoints resolved, two identical calls append two parallel edges, a call with
equal endpoints appends a self-loop edge, and the node list and specifier map
are untouched throughout. -/
theorem create_bond_no_dedup (r : MoleculeRepr) (a1 a2 : AtomSpecifier)
    (o : BondOrder) (i1 i2 : AtomIndex)
    (h1 : r.atom_map.get a1 = some i1) (h2 : r.atom_map.get a2 = some i2) :
    (r.create_bond a1 a2 o).bind (fun r1 => r1.create_bond a1 a2 o) =
      some { r with graph :=
        { r.graph with edges := r.graph.edges ++ [(i1, i2, o), (i1, i2, o)] } } ∧
    (r.create_bond a1 a1 o).map (fun x => x.graph.edges) =
      some (r.graph.edges ++ [(i1, i1, o)]) ∧
    (r.create_bond a1 a2 o).map (fun x => x.graph.nodes) = some r.graph.nodes ∧
    (r.create_bond a1 a2 o).map (fun x => x.atom_map) = some r.atom_map := by
  refine ⟨?_, ?_, ?_, ?_⟩
  · simp [MoleculeRepr.create_bond, h1, h2, Graph.add_edge]
  · simp [MoleculeRepr.create_bond, h1, Graph.add_edge]
  · simp [MoleculeRepr.create_bond, h1, h2, Graph.add_edge]
  · simp [MoleculeRepr.create_bond, h1, h2, Graph.add_edge]

theorem create_bond_no_dedup_witness :
    (wRepr.create_bond seedSpec seedSpec 5).bind
        (fun r1 => r1.create_bond seedSpec seedSpec 5) =
      some { wRepr with graph :=
        { wRepr.graph with edges := wRepr.graph.edges ++ [(0, 0, 5), (0, 0, 5)] } } ∧
    (wRepr.create_bond seedSpec seedSpec 5).map (fun x => x.graph.edges) =
      some (wRepr.graph.edges ++ [(0, 0, 5)]) ∧
    (wRepr.create_bond seedSpec seedSpec 5).map (fun x => x.graph.nodes) =
      some wRepr.graph.nodes ∧
    (wRepr.create_bond seedSpec seedSpec 5).map (fun x => x.atom_map) =
      some wRepr.atom_map :=
  create_bond_no_dedup wRepr seedSpec seedSpec 5 0 0 rfl rfl

theorem applyFeatures_append (fl : FeatureList) (l1 l2 : List FeatureId)
    (r : MoleculeRepr) :
    applyFeatures fl (l1 ++ l2) r =
      (applyFeatures fl l1 r).bind (fun x => applyFeatures fl l2 x) := by
  induction l1 generalizing r with
  | nil => simp [applyFeatures]
  | cons id ids ih =>
    cases hg : fl.get id with
    | none => simp [applyFeatures, hg]
    | some f =>
      cases ha : f.apply id r with
      | none => simp [applyFeatures, hg, ha]
      | some r' => simp [applyFeatures, hg, ha, ih]

theorem slice_append (l : List FeatureId) (a b c : Nat) (hab : a ≤ b)
    (hbc : b ≤ c) :
    (l.drop a).take (b - a) ++ (l.drop b).take (c - b) =
      (l.drop a).take (c - a) := by
  have h1 : (l.drop a).drop (b - a) = l.drop b := by
    rw [List.drop_drop]
    congr 1
    omega
  have h2 : c - a = (b - a) + (c - b) := by omega
  rw [h2, List.take_add, h1]

theorem set_history_step_eq_some_iff (m : Molecule) (t : Nat) (m' : Molecule) :
    m.set_history_step t = some m' ↔
      t ≤ m.features.len ∧ m.history_step < t ∧
      ∃ r, applyFeatures m.features
          ((m.features.order.drop m.history_step).take (t - m.history_step))
          m.repr = some r ∧
        m' = { m with repr := r, history_step := t } := by
  unfold Molecule.set_history_step
  by_cases h1 : t ≤ m.features.len
  · rw [if_pos h1]
    by_cases h2 : m.history_step < t
    · rw [if_pos h2]
      cases happ : applyFeatures m.features
          ((m.features.order.drop m.history_step).take (t - m.history_step))
          m.repr with
      | none => simp [h1, h2, happ]
      | some rr => simp [h1, h2, happ, eq_comm]
    · rw [if_neg h2]
      simp [h2]
  · rw [if_neg h1]
    simp [h1]

theorem set_history_step_compose (m m1 : Molecule) (t1 t2 : Nat)
    (h1 : m.set_history_step t1 = some m1) (h12 : t1 < t2)
    (h2 : t2 ≤ m.features.len) :
    m1.set_history_step t2 = m.set_history_step t2 := by
  rw [set_history_step_eq_some_iff] at h1
  obtain ⟨hlen1, hlt1, r1, happ1, hm1⟩ := h1
  subst hm1
  unfold Molecule.set_history_step
  dsimp only
  rw [if_pos h2, if_pos h12, if_pos h2, if_pos (lt_trans hlt1 h12),
    ← slice_append m.features.order m.history_step t1 t2 (le_of_lt hlt1)
      (le_of_lt h12),
    applyFeatures_append, happ1]
  simp only [Option.some_bind]

theorem set_history_step_none_mono (m : Molecule) (t1 t2 : Nat)
    (hgt : m.history_step < t1) (h12 : t1 ≤ t2) (h2 : t2 ≤ m.features.len)
    (h1 : m.set_history_step t1 = none) :
    m.set_history_step t2 = none := by
  unfold Molecule.set_history_step at h1 ⊢
  rw [if_pos (le_trans h12 h2), if_pos hgt] at h1
  rw [if_pos h2, if_pos (lt_of_lt_of_le hgt h12)]
  cases happ : applyFeatures m.features
      ((m.features.order.drop m.history_step).take (t1 - m.history_step))
      m.repr with
  | some rr =>
    rw [happ] at h1
    simp at h1
  | none =>
    rw [← slice_append m.features.order m.history_step t1 t2 (le_of_lt hgt) h12,
      applyFeatures_append, happ]
    rfl

theorem chain_lt_append_last (a tf : Nat) (l : List Nat)
    (h : List.Chain' (· < ·) (a :: l ++ [tf])) : a < tf := by
  induction l generalizing a with
  | nil => exact (List.chain'_cons.mp h).1
  | cons b l ih =>
    simp only [List.cons_append] at h
    have h' := List.chain'_cons.mp h
    exact lt_trans h'.1 (ih b h'.2)

/-- C1: replaying a strictly increasing sequence of intermediate targets
followed by the final target through repeated set_history_step calls produces
exactly the same result — the same atoms, bonds and specifier map, indeed the
same whole Molecule state, or the same panic — as one set_history_step call at
the final target. -/
theorem set_history_step_replay (m : Molecule) (ts : List Nat) (tfin : Nat)
    (hchain : List.Chain' (· < ·) (m.history_step :: (ts ++ [tfin])))
    (hfin : tfin ≤ m.features.len) :
    (ts ++ [tfin]).foldlM Molecule.set_history_step m =
      m.set_history_step tfin := by
  induction ts generalizing m with
  | nil =>
    simp [List.foldlM]
  | cons t ts ih =>
    have h' : m.history_step < t ∧
        List.Chain' (· < ·) (t :: (ts ++ [tfin])) := by
      simp only [List.cons_append] at hchain
      exact List.chain'_cons.mp hchain
    have htf : t < tfin := chain_lt_append_last t tfin ts h'.2
    rw [List.cons_append, List.foldlM_cons]
    cases hset : m.set_history_step t with
    | none =>
      exact (set_history_step_none_mono m t tfin h'.1 (le_of_lt htf) hfin
        hset).symm
    | some m1 =>
      obtain ⟨_, _, r1, _, hm1⟩ := (set_history_step_eq_some_iff m t m1).mp hset
      have hchain1 : List.Chain' (· < ·) (m1.history_step :: (ts ++ [tfin])) := by
        rw [hm1]
        exact h'.2
      have hfin1 : tfin ≤ m1.features.len := by
        rw [hm1]
        exact hfin
      show (ts ++ [tfin]).foldlM Molecule.set_history_step m1 =
        m.set_history_step tfin
      rw [ih m1 hchain1 hfin1]
      exact set_history_step_compose m m1 t tfin hset htf hfin

theorem set_history_step_replay_witness :
    ([2] ++ [3]).foldlM Molecule.set_history_step demoMol =
      demoMol.set_history_step 3 :=
  set_history_step_replay demoMol [2] 3
    (show List.Chain' (· < ·) [1, 2, 3] from
      List.chain'_cons.mpr ⟨by omega,
        List.chain'_cons.mpr ⟨by omega, List.chain'_singleton 3⟩⟩)
    (by decide)

theorem step_props (m m' : Molecule) (h : Step m m') :
    m.history_step ≤ m'.history_step ∧
    (m.history_step ≤ m.features.len →
      m'.history_step ≤ m'.features.len) := by
  cases h with
  | set_step _ t hset =>
    obtain ⟨hlen, hlt, r, _, hm⟩ := (set_history_step_eq_some_iff _ _ _).mp hset
    subst hm
    exact ⟨le_of_lt hlt, fun _ => hlen⟩
  | apply_all _ hset =>
    obtain ⟨hlen, hlt, r, _, hm⟩ :=
      (set_history_step_eq_some_iff _ _ _).mp hset
    subst hm
    exact ⟨le_of_lt hlt, fun _ => hlen⟩
  | with_feats fs =>
    refine ⟨le_refl _, fun hb => ?_⟩
    show m.history_step ≤ (pushAll fs m.features).len
    rw [pushAll_len]
    omega

/-- C5: over any lifetime of public operations the history step never
decreases and always lies within [0, timeline length]; a Molecule built by
from_first_atom starts with history step 1 and exactly one timeline entry. -/
theorem history_step_invariant :
    (∀ m m' : Molecule, Reachable m m' → m.history_step ≤ m'.history_step) ∧
    (∀ (e : Element) (m : Molecule),
      Reachable (Molecule.from_first_atom () e) m →
        1 ≤ m.history_step ∧ m.history_step ≤ m.features.len) ∧
    (∀ e : Element, (Molecule.from_first_atom () e).history_step = 1 ∧
      (Molecule.from_first_atom () e).features.len = 1) := by
  have hmono : ∀ m m' : Molecule, Reachable m m' →
      m.history_step ≤ m'.history_step := by
    intro m m' h
    induction h with
    | refl => exact le_refl _
    | tail _ hstep ih => exact le_trans ih (step_props _ _ hstep).1
  refine ⟨hmono, ?_, fun e => ⟨rfl, rfl⟩⟩
  intro e m h
  induction h with
  | refl => exact ⟨le_refl 1, le_refl 1⟩
  | tail _ hstep ih =>
    exact ⟨le_trans ih.1 (step_props _ _ hstep).1,
      (step_props _ _ hstep).2 ih.2⟩

theorem history_step_invariant_witness :
    ((Molecule.from_first_atom () 6).history_step ≤ demoMol.history_step) ∧
    (1 ≤ demoMol.history_step ∧ demoMol.history_step ≤ demoMol.features.len) ∧
    ((Molecule.from_first_atom () 6).history_step = 1 ∧
      (Molecule.from_first_atom () 6).features.len = 1) :=
  ⟨history_step_invariant.1 (Molecule.from_first_atom () 6) demoMol
      (Relation.ReflTransGen.single
        (Step.with_feats (Molecule.from_first_atom () 6)
          [demoFeature, demoBondFeature])),
   history_step_invariant.2.1 6 demoMol
      (Relation.ReflTransGen.single
        (Step.with_feats (Molecule.from_first_atom () 6)
          [demoFeature, demoBondFeature])),
   history_step_invariant.2.2 6⟩

end AtomCAD
